import Mathlib

/-!
Verification of the data-synchronization layer of the music-tracker UI
(`src/App.tsx` together with the API client `src/api/client.ts`).

The development shallowly embeds, straight from the source:

* the release data model and the grouping/sorting presenter of `ReleasesView`
  (`groupReleasesByType`, `typeOrder`, `sortedTypes`);
* the state of `ArtistSearchSection` (its four `useState` hooks) together with
  a small-step semantics for the debounced-search workflow: `input` models a
  keystroke (the debounce effect's cleanup clears the previous `setTimeout`
  and a new one is armed with the captured query), `timerFire` models the
  quiet period elapsing (the timer callback runs `handleSearch` up to the
  `await`), `response` models an issued request resolving (the rest of
  `handleSearch` runs).  Real time is abstracted into event order: a
  keystroke that happens less than 300 ms after the previous one is a trace
  in which no `timerFire` occurs between the two `input` events;
* `handleAddArtist` (the follow mutation with its 409-conflict handling);
* the `MainContent` connection gate.

Machine dates (`new Date(release_date).getTime()`) are modelled as integer
timestamps; valid date strings are assumed, so date comparison is integer
comparison.
-/

namespace MusicTracker

/-! ### Release data model (interface `Release` in `src/api/client.ts`) -/

/-- A release row as delivered by `GET /api/releases/new`.  `release_date`
holds the timestamp `new Date(release_date).getTime()` of the source's date
string; `release_type` is `none` when the field is missing from the payload
(the grouping code guards with `release.release_type || 'Other'`). -/
structure Release where
  id : String
  artist_id : String
  artist_name : String
  title : String
  mbid : Option String
  release_date : Int
  release_type : Option String
  track_count : Nat
  is_new : Bool
  discovered_at : String
deriving DecidableEq, Repr

/-- `release.release_type || 'Other'`: a missing or empty (falsy) type
normalizes to `"Other"`. -/
def normType (r : Release) : String :=
  match r.release_type with
  | none => "Other"
  | some t => if t = "" then "Other" else t

/-! ### Grouping presenter (`groupReleasesByType` and the bucket ordering of
`ReleasesView`). The JS object `grouped` is embedded as an association list
whose key order records the order in which keys were first inserted;
`Object.keys` enumeration is modelled separately by `jsKeys`, which applies
the JS own-property order: array-index-like keys (canonical decimal numerals
below `2^32 - 1`) first, in ascending numeric order, then the remaining
string keys in insertion order. -/

/-- `grouped[type].push(release)`, creating the bucket on first use (appended
at the end, i.e. keys stay in first-insertion order). -/
def pushBucket (key : String) (r : Release) :
    List (String × List Release) → List (String × List Release)
  | [] => [(key, [r])]
  | (k, rs) :: rest =>
      if k = key then (k, rs ++ [r]) :: rest
      else (k, rs) :: pushBucket key r rest

/-- The `releases.forEach` loop of `groupReleasesByType`: bucket every
release under its normalized type. -/
def buildGroups (rels : List Release) : List (String × List Release) :=
  rels.foldl (fun g r => pushBucket (normType r) r g) []

/-- Stable insertion of a release into a date-descending list: the new
element goes in front of the first element whose date is `≤` its own.
Together with `sortDesc` this realizes the source's stable
`sort((a, b) => dateB.getTime() - dateA.getTime())`: JS `Array.prototype.sort`
is stable, and a stable sort for a total preorder has a unique result, the
one characterized by `sortDesc_pairwise` and `sortDesc_filter` below. -/
def insertDesc (r : Release) : List Release → List Release
  | [] => [r]
  | x :: xs =>
      if x.release_date ≤ r.release_date then r :: x :: xs
      else x :: insertDesc r xs

/-- Stable sort by `release_date` descending (newest first). -/
def sortDesc : List Release → List Release
  | [] => []
  | r :: rs => insertDesc r (sortDesc rs)

/-- `groupReleasesByType` from `ReleasesView`: bucket by normalized type,
then sort each bucket by release date, newest first. -/
def groupReleasesByType (rels : List Release) : List (String × List Release) :=
  (buildGroups rels).map (fun kv => (kv.1, sortDesc kv.2))

/-- `const typeOrder = ['Album', 'EP', 'Single', 'Compilation', 'Soundtrack', 'Other']`. -/
def typeOrder : List String :=
  ["Album", "EP", "Single", "Compilation", "Soundtrack", "Other"]

/-- `groupedReleases[type]`, with the absent bucket read as `[]`. -/
def bucketOf (g : List (String × List Release)) (t : String) : List Release :=
  (List.lookup t g).getD []

/-- Digit value of a character, `none` for non-digits. -/
def digitVal? (c : Char) : Option Nat :=
  if c = '0' then some 0
  else if c = '1' then some 1
  else if c = '2' then some 2
  else if c = '3' then some 3
  else if c = '4' then some 4
  else if c = '5' then some 5
  else if c = '6' then some 6
  else if c = '7' then some 7
  else if c = '8' then some 8
  else if c = '9' then some 9
  else none

/-- Base-10 value of a digit string, `none` if any character is not a
digit. -/
def natOfDigits : List Char → Nat → Option Nat
  | [], acc => some acc
  | c :: cs, acc =>
      match digitVal? c with
      | some d => natOfDigits cs (acc * 10 + d)
      | none => none

/-- JS array-index key test: `s` is the canonical decimal string — digits
only, no leading zeros (except `0` itself), no sign — of a natural number
below `2^32 - 1`.  Object keys of this shape are enumerated before all other
string keys, in ascending numeric order. -/
def isArrayIndex (s : String) : Bool :=
  match s.data with
  | [] => false
  | c :: cs =>
      match natOfDigits (c :: cs) 0 with
      | none => false
      | some n => (!(c == '0') || cs.isEmpty) && decide (n < 4294967295)

/-- Numeric value of an array-index key (used only on keys for which
`isArrayIndex` holds). -/
def idxVal (s : String) : Nat := (natOfDigits s.data 0).getD 0

/-- Insert a key into a numerically ascending list of array-index keys. -/
def insertAsc (s : String) : List String → List String
  | [] => [s]
  | x :: xs => if idxVal s ≤ idxVal x then s :: x :: xs else x :: insertAsc s xs

/-- Sort array-index keys in ascending numeric order. -/
def sortAscIdx : List String → List String
  | [] => []
  | s :: ss => insertAsc s (sortAscIdx ss)

/-- `Object.keys` of a JS object whose keys, in insertion order, are `ks`:
array-index-like keys first in ascending numeric order, then the remaining
string keys in insertion order. -/
def jsKeys (ks : List String) : List String :=
  sortAscIdx (ks.filter (fun k => isArrayIndex k))
    ++ ks.filter (fun k => !(isArrayIndex k))

/-- The `sortedTypes` computation of `ReleasesView`:
`typeOrder.filter(type => groupedReleases[type])` followed by pushing every
key of `Object.keys(groupedReleases)` that is not in `typeOrder`, in
enumeration order (`jsKeys`). -/
def sortedTypes (rels : List Release) : List String :=
  typeOrder.filter (fun t => ((groupReleasesByType rels).map Prod.fst).contains t)
    ++ (jsKeys ((groupReleasesByType rels).map Prod.fst)).filter
        (fun t => !(typeOrder.contains t))

/-- The rendered sequence of sections: `sortedTypes.map(type => ...)`, each
section showing `groupedReleases[type]`. -/
def presentReleases (rels : List Release) : List (String × List Release) :=
  (sortedTypes rels).map (fun t => (t, bucketOf (groupReleasesByType rels) t))

/-! Spec-side definitions for claim C4 (written from the claim's words, to be
compared with the source-side `sortedTypes`). -/

/-- A search hit as delivered by `GET /api/artists/search` and consumed by
the results grid (`mbid`, `name`, `disambiguation`, `country`, `begin_date`,
`is_followed`). -/
structure SearchResult where
  mbid : String
  name : String
  disambiguation : Option String
  country : Option String
  begin_date : Option String
  is_followed : Bool
deriving DecidableEq, Repr

/-- The payload a search request resolves with: `ok` carries
`results.artists` (possibly absent, the source guards with `|| []`);
`fail` is a rejected promise (network or HTTP error). -/
inductive SearchResponse where
  | ok (artists : Option (List SearchResult))
  | fail
deriving DecidableEq, Repr

/-- The component state of `ArtistSearchSection`: its four `useState` hooks,
plus the pending debounce timer (the query captured by the armed
`setTimeout`, `none` when no timer is pending) and an observational log of
the remote search queries issued so far. -/
structure SearchState where
  searchQuery : String
  searchResults : List SearchResult
  isSearching : Bool
  addingArtistId : Option String
  debounceTimer : Option String
  issuedSearches : List String
deriving DecidableEq, Repr

/-- One event-loop turn of the search workflow. -/
inductive SearchEvent where
  | input (q : String)
  | timerFire
  | response (r : SearchResponse)
deriving DecidableEq, Repr

/-- Small-step semantics of `ArtistSearchSection`, straight from the source:

* `input q` — `setSearchQuery(q)`; the debounce effect re-runs: its cleanup
  `clearTimeout`s the previous timer and a new 300 ms timer is armed with the
  captured query `q`.
* `timerFire` — the pending timer fires and `handleSearch(q)` runs up to its
  `await`: a query shorter than 2 characters clears the results and returns
  without a remote call; otherwise `setIsSearching(true)` and the remote
  search for `q` is issued.
* `response r` — an issued request resolves: the `try` branch commits
  `results.artists || []` unconditionally (there is no generation tag), the
  `catch` branch commits `[]`, and `finally` clears the loading flag. -/
def searchStep (s : SearchState) : SearchEvent → SearchState
  | SearchEvent.input q =>
      { s with searchQuery := q, debounceTimer := some q }
  | SearchEvent.timerFire =>
      match s.debounceTimer with
      | none => s
      | some q =>
          if q.length < 2 then
            { s with debounceTimer := none, searchResults := [] }
          else
            { s with debounceTimer := none, isSearching := true,
                     issuedSearches := s.issuedSearches ++ [q] }
  | SearchEvent.response r =>
      match r with
      | SearchResponse.ok artists =>
          { s with searchResults := artists.getD [], isSearching := false }
      | SearchResponse.fail =>
          { s with searchResults := [], isSearching := false }

/-- Run a trace of event-loop turns. -/
def runSearch (s : SearchState) (es : List SearchEvent) : SearchState :=
  es.foldl searchStep s

/-- The state right after the component mounts: empty query and results, and
the mount run of the debounce effect has already armed a timer for `''`. -/
def initSearchState : SearchState :=
  { searchQuery := ""
    searchResults := []
    isSearching := false
    addingArtistId := none
    debounceTimer := some ""
    issuedSearches := [] }

/-! ### Follow mutation (`handleAddArtist`) -/

/-- The error a rejected `api.artists.add` carries: `http s` when
`error.response` is present with status `s`, `network` when there is no
response object (`error.response?.status` is `undefined`). -/
inductive AddError where
  | http (status : Nat)
  | network
deriving DecidableEq, Repr

/-- Outcome of the follow mutation as the user observes it: the success path,
the `409` alert (`already in your follow list`), or the generic retry
alert. -/
inductive AddOutcome where
  | success
  | conflict
  | failure
deriving DecidableEq, Repr

/-- The `catch` branch of `handleAddArtist`:
`error.response?.status === 409` shows the duplicate-artist message, every
other error the generic one. -/
def classifyAddError : AddError → AddOutcome
  | AddError.http s => if s = 409 then AddOutcome.conflict else AddOutcome.failure
  | AddError.network => AddOutcome.failure

/-- `handleAddArtist(artist)` given how the `await api.artists.add` resolves:
the in-flight marker is set to the artist's `mbid`; on success the search
query and results are cleared (and the parent is notified); on error the
outcome is classified; `finally` resets the marker. -/
def handleAddArtist (artist : SearchResult) (result : Except AddError Unit)
    (s : SearchState) : AddOutcome × SearchState :=
  let s1 := { s with addingArtistId := some artist.mbid }
  match result with
  | Except.ok _ =>
      (AddOutcome.success,
        { s1 with searchQuery := "", searchResults := [], addingArtistId := none })
  | Except.error e =>
      (classifyAddError e, { s1 with addingArtistId := none })

/-! ### Connection gate (`MainContent`) -/

/-- What the content area renders. -/
inductive RenderedContent where
  | connectionHelp
  | releasesView
  | artistsView
  | statsView
  | notificationsContent
  | syncContent
  | comingSoon
deriving DecidableEq, Repr

/-- JS truthiness of `apiConnected : boolean | null`: only `true` is truthy. -/
def jsTruthy : Option Bool → Bool
  | some b => b
  | none => false

/-- `MainContent`: `if (!apiConnected) return <ConnectionHelp/>` followed by
the `switch (currentView)`.  Only `ReleasesView`, `ArtistsView` and
`StatsView` mount `useQuery` fetches, and only `ArtistsView` hosts the
search/mutation section; `connectionHelp` mounts none of them. -/
def mainContent (currentView : String) (apiConnected : Option Bool) : RenderedContent :=
  if !(jsTruthy apiConnected) then RenderedContent.connectionHelp
  else
    match currentView with
    | "releases" => RenderedContent.releasesView
    | "artists" => RenderedContent.artistsView
    | "stats" => RenderedContent.statsView
    | "notifications" => RenderedContent.notificationsContent
    | "sync" => RenderedContent.syncContent
    | _ => RenderedContent.comingSoon

/-! ### Properties of the stable descending sort -/

theorem insertDesc_perm (r : Release) (l : List Release) :
    (insertDesc r l).Perm (r :: l) := by
  induction l with
  | nil => exact List.Perm.refl _
  | cons x xs ih =>
    simp only [insertDesc]
    split
    · exact List.Perm.refl _
    · exact (ih.cons x).trans (List.Perm.swap r x xs)

theorem mem_insertDesc {a r : Release} {l : List Release} :
    a ∈ insertDesc r l ↔ a = r ∨ a ∈ l := by
  rw [(insertDesc_perm r l).mem_iff]
  simp

theorem pairwise_insertDesc (r : Release) {l : List Release}
    (h : l.Pairwise (fun a b => b.release_date ≤ a.release_date)) :
    (insertDesc r l).Pairwise (fun a b => b.release_date ≤ a.release_date) := by
  induction l with
  | nil => simp [insertDesc]
  | cons x xs ih =>
    rcases List.pairwise_cons.mp h with ⟨hx, hxs⟩
    simp only [insertDesc]
    split
    · rename_i hle
      refine List.pairwise_cons.mpr ⟨?_, h⟩
      intro b hb
      rcases List.mem_cons.mp hb with rfl | hbxs
      · exact hle
      · exact le_trans (hx b hbxs) hle
    · rename_i hgt
      refine List.pairwise_cons.mpr ⟨?_, ih hxs⟩
      intro b hb
      rcases mem_insertDesc.mp hb with rfl | hbxs
      · exact le_of_lt (not_le.mp hgt)
      · exact hx b hbxs

theorem sortDesc_pairwise (l : List Release) :
    (sortDesc l).Pairwise (fun a b => b.release_date ≤ a.release_date) := by
  induction l with
  | nil => simp [sortDesc]
  | cons r rs ih => exact pairwise_insertDesc r ih

theorem filter_insertDesc (r : Release) (l : List Release) (d : Int) :
    (insertDesc r l).filter (fun x => x.release_date == d) =
      if r.release_date == d then
        r :: l.filter (fun x => x.release_date == d)
      else l.filter (fun x => x.release_date == d) := by
  induction l with
  | nil => simp [insertDesc, List.filter_cons]
  | cons x xs ih =>
    by_cases hle : x.release_date ≤ r.release_date
    · simp only [insertDesc, if_pos hle, List.filter_cons]
    · simp only [insertDesc, if_neg hle, List.filter_cons]
      by_cases hr : r.release_date = d
      · by_cases hx : x.release_date = d
        · exact absurd (le_of_eq (hx.trans hr.symm)) hle
        · simp [ih, hx, hr]
      · simp [ih, hr]

theorem sortDesc_filter (l : List Release) (d : Int) :
    (sortDesc l).filter (fun x => x.release_date == d) =
      l.filter (fun x => x.release_date == d) := by
  induction l with
  | nil => rfl
  | cons r rs ih =>
    simp only [sortDesc, filter_insertDesc, ih, List.filter_cons]

/-! ### Properties of the bucketing -/

theorem bucketOf_cons_eq (k : String) (rs : List Release)
    (g : List (String × List Release)) :
    bucketOf ((k, rs) :: g) k = rs := by
  simp [bucketOf, List.lookup_cons_self]

theorem bucketOf_cons_ne {t k : String} (h : ¬t = k) (rs : List Release)
    (g : List (String × List Release)) :
    bucketOf ((k, rs) :: g) t = bucketOf g t := by
  simp [bucketOf, List.lookup_cons, beq_false_of_ne h]

theorem bucketOf_pushBucket (g : List (String × List Release)) (k : String)
    (r : Release) (t : String) :
    bucketOf (pushBucket k r g) t =
      if t = k then bucketOf g t ++ [r] else bucketOf g t := by
  induction g with
  | nil =>
    show bucketOf [(k, [r])] t = if t = k then bucketOf [] t ++ [r] else bucketOf [] t
    by_cases h : t = k
    · rw [if_pos h, h, bucketOf_cons_eq]
      rfl
    · rw [if_neg h, bucketOf_cons_ne h]
  | cons kv g ih =>
    obtain ⟨k1, rs⟩ := kv
    have hstep : pushBucket k r ((k1, rs) :: g) =
        if k1 = k then (k1, rs ++ [r]) :: g else (k1, rs) :: pushBucket k r g := rfl
    rw [hstep]
    by_cases hk : k1 = k
    · rw [if_pos hk]
      by_cases h : t = k1
      · rw [h, if_pos hk, bucketOf_cons_eq, bucketOf_cons_eq]
      · have hne : ¬t = k := fun e => h (e.trans hk.symm)
        rw [bucketOf_cons_ne h, if_neg hne, bucketOf_cons_ne h]
    · rw [if_neg hk]
      by_cases h : t = k1
      · rw [h, bucketOf_cons_eq, if_neg hk, bucketOf_cons_eq]
      · rw [bucketOf_cons_ne h, ih, bucketOf_cons_ne h]

theorem bucketOf_buildGroups_aux (rels : List Release) (t : String) :
    ∀ g, bucketOf (rels.foldl (fun g r => pushBucket (normType r) r g) g) t =
      bucketOf g t ++ rels.filter (fun r => normType r == t) := by
  induction rels with
  | nil => intro g; simp
  | cons r rels ih =>
    intro g
    simp only [List.foldl_cons, List.filter_cons]
    rw [ih, bucketOf_pushBucket]
    by_cases h : normType r = t
    · rw [if_pos h.symm, if_pos (by simp [h])]
      simp [List.append_assoc]
    · rw [if_neg (fun e => h e.symm), if_neg (by simp [h])]

theorem bucketOf_buildGroups (rels : List Release) (t : String) :
    bucketOf (buildGroups rels) t = rels.filter (fun r => normType r == t) := by
  have := bucketOf_buildGroups_aux rels t []
  simpa [buildGroups, bucketOf] using this

theorem lookup_mapVal (f : List Release → List Release) (t : String) :
    ∀ g : List (String × List Release),
      List.lookup t (g.map (fun kv => (kv.1, f kv.2))) = (List.lookup t g).map f := by
  intro g
  induction g with
  | nil => rfl
  | cons kv g ih =>
    obtain ⟨k, rs⟩ := kv
    by_cases h : t = k
    · subst h
      simp [List.lookup_cons_self]
    · simp [List.lookup_cons, beq_false_of_ne h, ih]

theorem bucketOf_group (rels : List Release) (t : String) :
    bucketOf (groupReleasesByType rels) t =
      sortDesc (rels.filter (fun r => normType r == t)) := by
  rw [← bucketOf_buildGroups]
  unfold groupReleasesByType bucketOf
  rw [lookup_mapVal]
  cases List.lookup t (buildGroups rels) with
  | none => rfl
  | some rs => rfl

/-! ### The bucket keys are the normalized types in first-appearance order -/

/-- A sample search hit. -/
def resA : SearchResult :=
  { mbid := "mbid-a", name := "Artist A", disambiguation := none,
    country := none, begin_date := none, is_followed := false }

/-- A second, distinct sample search hit. -/
def resB : SearchResult :=
  { mbid := "mbid-b", name := "Artist B", disambiguation := none,
    country := none, begin_date := none, is_followed := false }

/-- A sample release with the given id, type and date. -/
def mkRel (i : String) (ty : Option String) (d : Int) : Release :=
  { id := i, artist_id := "ar-1", artist_name := "Artist", title := i,
    mbid := none, release_date := d, release_type := ty, track_count := 1,
    is_new := true, discovered_at := "2024-01-01" }

/-- Sanity check mirroring the spec's grouping example: types
`Single, Album, Single, EP` yield bucket order `Album, EP, Single`. -/
theorem grouping_sanity :
    (presentReleases
      [mkRel "1" (some "Single") 5, mkRel "2" (some "Album") 3,
       mkRel "3" (some "Single") 9, mkRel "4" (some "EP") 7]).map Prod.fst =
      ["Album", "EP", "Single"] := by decide

/-- Sanity check: the `Single` bucket of the same input is date-sorted,
newest first. -/
theorem grouping_sanity_bucket :
    bucketOf
      (groupReleasesByType
        [mkRel "1" (some "Single") 5, mkRel "2" (some "Album") 3,
         mkRel "3" (some "Single") 9, mkRel "4" (some "EP") 7]) "Single" =
      [mkRel "3" (some "Single") 9, mkRel "1" (some "Single") 5] := by decide

/-- Sanity check of the JS key-enumeration model: array-index-like keys come
first in ascending numeric order, the rest keep insertion order. -/
theorem jsKeys_sanity :
    jsKeys ["Zzz", "1999", "3", "Live"] = ["3", "1999", "Zzz", "Live"] := by decide

/-! ### The claims -/

/-- Claim C1, counterexample. The trace below is: the user types `ab`; the
quiet period elapses and the search for `ab` is issued (generation 1); the
user types again (`abc`) before that response returns; the search for `abc`
is issued (generation 2); generation 2's response (`[resB]`) arrives and is
displayed; then generation 1's superseded response (`[resA]`) arrives.  The
code commits it unconditionally, so the displayed results end up being the
superseded response's list, overwriting the results belonging to the latest
input — the claimed silent discard does not happen. -/
theorem C1_stale_overwrite :
    (runSearch initSearchState
      [SearchEvent.input "ab", SearchEvent.timerFire,
       SearchEvent.input "abc", SearchEvent.timerFire,
       SearchEvent.response (SearchResponse.ok (some [resB])),
       SearchEvent.response (SearchResponse.ok (some [resA]))]).issuedSearches =
        ["ab", "abc"] ∧
    (runSearch initSearchState
      [SearchEvent.input "ab", SearchEvent.timerFire,
       SearchEvent.input "abc", SearchEvent.timerFire,
       SearchEvent.response (SearchResponse.ok (some [resB])),
       SearchEvent.response (SearchResponse.ok (some [resA]))]).searchResults =
        [resA] ∧
    ([resA] : List SearchResult) ≠ [resB] := by
  refine ⟨by decide, by decide, by decide⟩

/-- Claim C1, amended: `handleSearch` carries no generation tag, so every
response that arrives is committed unconditionally — the displayed search
results are those of the last response to arrive, whether or not the search
that produced it has been superseded.  (Typing again only cancels a search
whose debounce timer has not yet fired.) -/
theorem C1_last_response_wins (s : SearchState) (es : List SearchEvent)
    (rs : List SearchResult) :
    (runSearch s
      (es ++ [SearchEvent.response (SearchResponse.ok (some rs))])).searchResults = rs := by
  simp only [runSearch, List.foldl_append]
  rfl

/-- Claim C2, counterexample: at the moment of the input change to the
1-character query `a`, the displayed results are untouched (they still hold
the previous search's results); the clearing only happens when the debounce
timer fires 300 ms later, so `cleared immediately at the moment of the input
change` is false. -/
theorem C2_results_not_cleared_at_input :
    (searchStep
      { searchQuery := "ab", searchResults := [resA], isSearching := false,
        addingArtistId := none, debounceTimer := none, issuedSearches := ["ab"] }
      (SearchEvent.input "a")).searchResults = [resA] ∧
    ([resA] : List SearchResult) ≠ [] := ⟨rfl, by decide⟩

/-- Claim C2, amended: a query shorter than 2 characters never triggers a
remote call, and the displayed results are cleared — but only when the
quiet-period timer fires, not at the moment of the input change (at that
moment they are unchanged). -/
theorem C2_short_query_guard (s : SearchState) (q : String) (h : q.length < 2) :
    (searchStep s (SearchEvent.input q)).searchResults = s.searchResults ∧
    (runSearch s [SearchEvent.input q, SearchEvent.timerFire]).issuedSearches =
      s.issuedSearches ∧
    (runSearch s [SearchEvent.input q, SearchEvent.timerFire]).searchResults = [] := by
  refine ⟨rfl, ?_, ?_⟩ <;> simp [runSearch, searchStep, h]

/-- Witness for C2_short_query_guard at the concrete input `a`. -/
theorem C2_short_query_guard_witness :
    (searchStep initSearchState (SearchEvent.input "a")).searchResults =
      initSearchState.searchResults ∧
    (runSearch initSearchState
      [SearchEvent.input "a", SearchEvent.timerFire]).issuedSearches =
      initSearchState.issuedSearches ∧
    (runSearch initSearchState
      [SearchEvent.input "a", SearchEvent.timerFire]).searchResults = [] :=
  C2_short_query_guard initSearchState "a" (by decide)

/-- Inputs alone never issue a search: the debounce effect only re-arms the
timer. -/
theorem issued_unchanged_by_inputs (qs : List String) :
    ∀ s : SearchState,
      (runSearch s (qs.map SearchEvent.input)).issuedSearches = s.issuedSearches := by
  induction qs with
  | nil => intro s; rfl
  | cons q qs ih => intro s; exact ih (searchStep s (SearchEvent.input q))

/-- Claim C3, counterexample: with the single keystroke `a` (trivially every
gap is below the quiet period) and the input then left stable, the quiet
period elapses and zero remote searches are issued — not exactly one search
for the final value `a` — because of the minimum-length guard. -/
theorem C3_short_final_input_issues_nothing :
    (runSearch initSearchState
      [SearchEvent.input "a", SearchEvent.timerFire]).issuedSearches = [] ∧
    ([] : List String) ≠ ["a"] := ⟨by decide, by decide⟩

/-- Claim C3, amended: while typing continues (each change within the quiet
period, i.e. no timer fires between inputs) zero remote searches are issued;
once the input is stable for the full quiet period, exactly one remote
search is issued, for the final value — provided the final value is at least
2 characters long; a shorter final value issues zero searches. -/
theorem C3_debounce_collapse (s : SearchState) (qs : List String) (q : String) :
    (runSearch s (qs.map SearchEvent.input)).issuedSearches = s.issuedSearches ∧
    (runSearch s
      (qs.map SearchEvent.input ++ [SearchEvent.input q, SearchEvent.timerFire])).issuedSearches =
      s.issuedSearches ++ (if 2 ≤ q.length then [q] else []) := by
  refine ⟨issued_unchanged_by_inputs qs s, ?_⟩
  simp only [runSearch, List.foldl_append]
  have h1 : (List.foldl searchStep s (qs.map SearchEvent.input)).issuedSearches =
      s.issuedSearches := issued_unchanged_by_inputs qs s
  by_cases hq : q.length < 2
  · have h2 : ¬2 ≤ q.length := by omega
    rw [if_neg h2, List.append_nil]
    simp [searchStep, hq, h1]
  · have h2 : 2 ≤ q.length := by omega
    rw [if_pos h2]
    simp [searchStep, hq, h1]

/-- Claim C5: within each bucket, releases are sorted by release date
descending, and the sort is stable: for every date, the sublist of releases
carrying that date is exactly the sublist they form in the input (original
input order). -/
theorem C5_bucket_sorted_stable (rels : List Release) (t : String) :
    (bucketOf (groupReleasesByType rels) t).Pairwise
      (fun a b => b.release_date ≤ a.release_date) ∧
    ∀ d : Int,
      (bucketOf (groupReleasesByType rels) t).filter (fun r => r.release_date == d) =
        (rels.filter (fun r => normType r == t)).filter
          (fun r => r.release_date == d) := by
  rw [bucketOf_group]
  exact ⟨sortDesc_pairwise _, fun d => sortDesc_filter _ d⟩

/-- Claim C6: the presenter applied to the empty release list yields an
empty output — no buckets, no section list — and, being a total function,
signals no error. -/
theorem C6_empty_input :
    presentReleases [] = [] ∧ groupReleasesByType [] = [] := ⟨rfl, rfl⟩

/-- Claim C7: a failed follow is classified for the caller: a backend 409
yields the distinct `conflict` outcome, every other error (other HTTP
status, or no response at all) yields the generic `failure` outcome, and the
two outcomes are distinct (and distinct from `success`). -/
theorem C7_conflict_vs_failure (artist : SearchResult) (e : AddError)
    (s : SearchState) :
    (handleAddArtist artist (Except.error e) s).1 =
      (if e = AddError.http 409 then AddOutcome.conflict else AddOutcome.failure) ∧
    AddOutcome.conflict ≠ AddOutcome.failure ∧
    (handleAddArtist artist (Except.error e) s).1 ≠ AddOutcome.success := by
  refine ⟨?_, by decide, ?_⟩
  · show classifyAddError e = _
    cases e with
    | http n =>
      by_cases h : n = 409
      · subst h; simp [classifyAddError]
      · simp [classifyAddError, h]
    | network => simp [classifyAddError]
  · show classifyAddError e ≠ AddOutcome.success
    cases e with
    | http n =>
      by_cases h : n = 409
      · subst h; simp [classifyAddError]
      · simp [classifyAddError, h]
    | network => simp [classifyAddError]

/-- Claim C8: whenever the connection state is unknown (`none`) or
disconnected (`some false`), the content area renders only the guidance view
(`ConnectionHelp`) — for every view the user may select — so no
data-fetching, search, or mutation component is mounted. -/
theorem C8_disconnected_gate (view : String) :
    mainContent view none = RenderedContent.connectionHelp ∧
    mainContent view (some false) = RenderedContent.connectionHelp := ⟨rfl, rfl⟩

/-- Claim C9: a failed search resolves to the empty result set and the
loading flag is cleared; nothing else in the component state changes, so no
error is surfaced at this layer. -/
theorem C9_search_failure_swallowed (s : SearchState) :
    searchStep s (SearchEvent.response SearchResponse.fail) =
      { s with searchResults := [], isSearching := false } := rfl

/-- Claim C10: when the follow mutation fails (conflict included), the
search query and the displayed search results keep their prior values and
the per-identity in-flight marker is reset to `none`; on success the query
and results are cleared and the marker is likewise reset. -/
theorem C10_add_failure_preserves_search_state (artist : SearchResult)
    (e : AddError) (u : Unit) (s : SearchState) :
    (handleAddArtist artist (Except.error e) s).2.searchQuery = s.searchQuery ∧
    (handleAddArtist artist (Except.error e) s).2.searchResults = s.searchResults ∧
    (handleAddArtist artist (Except.error e) s).2.addingArtistId = none ∧
    (handleAddArtist artist (Except.ok u) s).2.searchQuery = "" ∧
    (handleAddArtist artist (Except.ok u) s).2.searchResults = [] ∧
    (handleAddArtist artist (Except.ok u) s).2.addingArtistId = none :=
  ⟨rfl, rfl, rfl, rfl, rfl, rfl⟩

end MusicTracker
